import Mathlib

/-!
# Queue Operation Engine — shallow embedding

A shallow embedding of the queue operation engine of the
distributed-message-queue service (NestJS + Redis), covering
`src/backend/src/modules/internal/queues/queues.service.ts`,
`src/backend/src/modules/api/api.service.ts`,
`src/backend/src/utils/helpers.ts` and the request-level defaults of
`QueuesController` (`app.module.ts`).

Modelling conventions:

* The Redis keyspace is split into its four disjoint key families
  (`queue:{name}`, `queue:{name}:metadata`, `queue:{name}:stats:enqueued`,
  `queue:{name}:stats:dequeued`); a valid queue name never contains `:`,
  so the families cannot collide and are modelled as separate fields of
  `Store`, each keyed by the queue name.
* A Redis list is a Lean `List` whose index 0 is the head (left) end:
  `LPUSH` is cons, `BRPOP`/`LINDEX -1` act on the last element.  A Redis
  list key exists iff the list is nonempty.
* `JSON.stringify`/`JSON.parse` round trips are the identity on the
  structured value, so list elements are stored as a `Stored` value: an
  envelope (written by `QueuesService.enqueueMessage`/`bulkEnqueue`) or a
  bare payload (written by `ApiService.enqueue`).
* Counters (`INCR`/`INCRBY`/`GET` with a `'0'` fallback) are `Nat`s with
  an absent key read as 0.
* Timestamps (`new Date().toISOString()`, `Date.now()`) are logical clock
  values passed in by the caller; payloads and message ids are opaque
  strings passed in by the caller (`generateMessageId` draws random
  bytes).
* Each operation is a function `Store → Except QErr α × Store`; every
  thrown exception in the source occurs before the first store write, so
  the error branches return the input store unchanged.
* `BRPOP` is modelled at its serialization point: when the list is
  nonempty it atomically removes and returns the tail element; an empty
  list stands for the timed-out outcome (`null`).
-/

namespace DMQ

/-- Pointwise update of a string-keyed table, the effect of writing one
Redis key. -/
def upd {α : Type} (f : String → α) (k : String) (v : α) : String → α :=
  fun k' => if k' = k then v else f k'

/-- Message envelope `QueueMessage` from `types/queue.types.ts`:
`{id, payload, enqueuedAt, dequeuedAt?}`. -/
structure QueueMessage where
  id : String
  payload : String
  enqueuedAt : Nat
  dequeuedAt : Option Nat
deriving Repr, DecidableEq

/-- Queue metadata record `{name, createdAt}` stored at
`queue:{name}:metadata`. -/
structure QueueMetadata where
  name : String
  createdAt : Nat
deriving Repr, DecidableEq

/-- A serialized value resident in a queue list: either an envelope
(`QueuesService` writes `JSON.stringify` of a `QueueMessage`) or a bare
payload (`ApiService.enqueue` writes `JSON.stringify` of the raw message
body). -/
inductive Stored where
  | env : QueueMessage → Stored
  | raw : String → Stored
deriving Repr, DecidableEq

/-- The shared Redis state, one field per key family, keyed by queue
name.  An absent list key is `[]`, an absent counter reads 0. -/
structure Store where
  lists : String → List Stored
  metadata : String → Option QueueMetadata
  enqCount : String → Nat
  deqCount : String → Nat

/-- A store with no keys at all. -/
def Store.empty : Store :=
  { lists := fun _ => [], metadata := fun _ => none,
    enqCount := fun _ => 0, deqCount := fun _ => 0 }

/-- Error taxonomy raised by the engine operations. -/
inductive QErr where
  | invalidQueueName
  | timeoutTooLarge
  | queueNotFound
  | queueAlreadyExists
deriving Repr, DecidableEq

/-- Characters admitted by the character class `[a-zA-Z0-9_-]`. -/
def isQueueNameChar (c : Char) : Bool :=
  (decide ('a' ≤ c) && decide (c ≤ 'z')) ||
  (decide ('A' ≤ c) && decide (c ≤ 'Z')) ||
  (decide ('0' ≤ c) && decide (c ≤ '9')) ||
  c = '_' || c = '-'

/-- `helpers.ts` `validateQueueName`:
`/^[a-zA-Z0-9_-]+$/.test(name) && name.length <= 64 && name.length > 0`.
The regex test demands a nonempty string all of whose characters lie in
the class. -/
def validateQueueName (name : String) : Bool :=
  (!name.toList.isEmpty && name.toList.all isQueueNameChar)
    && decide (name.length ≤ 64) && decide (name.length > 0)

/-- The queue-name rule as the spec words it: the name matches the
anchored pattern of between 1 and 64 characters drawn from
`[A-Za-z0-9_-]`. -/
def specQueueNameMatches (name : String) : Bool :=
  decide (1 ≤ name.length) && decide (name.length ≤ 64)
    && name.toList.all isQueueNameChar

/-- Result of `QueuesService.enqueueMessage`. -/
structure EnqueueResult where
  queue : String
  messageId : String
  timestamp : Nat
deriving Repr, DecidableEq

/-- `QueuesService.enqueueMessage`: validate the name, build the
envelope, write metadata only when absent, `LPUSH` the envelope (cons at
the head), `INCR` the enqueued counter. -/
def enqueueMessage (queueName : String) (payload : String) (mid : String)
    (now : Nat) (s : Store) : Except QErr EnqueueResult × Store :=
  if !validateQueueName queueName then
    (.error .invalidQueueName, s)
  else
    let msg : QueueMessage :=
      { id := mid, payload := payload, enqueuedAt := now, dequeuedAt := none }
    let s1 :=
      if (s.metadata queueName).isNone then
        { s with
          metadata := upd s.metadata queueName
            (some { name := queueName, createdAt := now }) }
      else s
    let s2 := { s1 with lists := upd s1.lists queueName (Stored.env msg :: s1.lists queueName) }
    let s3 := { s2 with enqCount := upd s2.enqCount queueName (s2.enqCount queueName + 1) }
    (.ok { queue := queueName, messageId := mid, timestamp := now }, s3)

/-- A dequeued value as returned to the caller: `JSON.parse` of the
popped element with the `dequeuedAt` property assigned.  On a bare
payload the assignment bolts a `dequeuedAt` field onto the parsed
object. -/
inductive DeqVal where
  | env : QueueMessage → DeqVal
  | raw : String → Nat → DeqVal
deriving Repr, DecidableEq

/-- The `message.dequeuedAt = new Date().toISOString()` assignment on the
parsed popped element. -/
def stampDequeued (v : Stored) (now : Nat) : DeqVal :=
  match v with
  | .env m => .env { m with dequeuedAt := some now }
  | .raw p => .raw p now

/-- The wait handed to `BRPOP`:
`const timeoutSeconds = Math.floor(timeoutMs / 1000)`.  Note that Redis
interprets a `BRPOP` timeout of 0 seconds as "block indefinitely". -/
def brpopTimeoutSeconds (timeoutMs : Int) : Int := Int.fdiv timeoutMs 1000

/-- `QueuesService.dequeueMessage`: validate the name, reject timeouts
above 60 000 ms, `BRPOP` the tail element; on a hit stamp `dequeuedAt`
and `INCR` the dequeued counter, otherwise return `null`. -/
def dequeueMessage (queueName : String) (timeoutMs : Int) (now : Nat)
    (s : Store) : Except QErr (Option DeqVal) × Store :=
  if !validateQueueName queueName then (.error .invalidQueueName, s)
  else if timeoutMs > 60000 then (.error .timeoutTooLarge, s)
  else
    match (s.lists queueName).getLast? with
    | some v =>
        let s1 := { s with lists := upd s.lists queueName (s.lists queueName).dropLast }
        let s2 := { s1 with deqCount := upd s1.deqCount queueName (s1.deqCount queueName + 1) }
        (.ok (some (stampDequeued v now)), s2)
    | none => (.ok none, s)

/-- Redis `LRANGE` over a Lean list (index 0 is the head).  Negative
indices count from the end (−1 is the last element); a start resolving
below 0 is clamped to 0, a stop beyond the end is treated as the last
element, and an empty range yields `[]`, per the Redis documentation. -/
def lrange (xs : List Stored) (start stop : Int) : List Stored :=
  let n : Int := (xs.length : Int)
  let s := if start < 0 then max (n + start) 0 else start
  let e0 := if stop < 0 then n + stop else stop
  let e := min e0 (n - 1)
  if s > e then [] else (xs.drop s.toNat).take (e - s + 1).toNat

/-- Result of `QueuesService.peekMessages`. -/
structure PeekResult where
  queue : String
  messages : List Stored
  count : Nat
  totalDepth : Nat
deriving Repr, DecidableEq

/-- `QueuesService.peekMessages`: clamp the count at 100, `LRANGE` the
`min count 100` tail-end (oldest) elements, reverse them so the result is
oldest-first, and report the full depth.  No store key is written. -/
def peekMessages (queueName : String) (count : Int) (s : Store) :
    Except QErr PeekResult × Store :=
  if !validateQueueName queueName then (.error .invalidQueueName, s)
  else
    let messageCount := min count 100
    let msgs := lrange (s.lists queueName) (-messageCount) (-1)
    let depth := (s.lists queueName).length
    (.ok { queue := queueName, messages := msgs.reverse,
           count := msgs.length, totalDepth := depth }, s)

/-- Result of `QueuesService.bulkEnqueue`. -/
structure BulkResult where
  queue : String
  enqueuedCount : Nat
  messageIds : List String
  timestamp : Nat
deriving Repr, DecidableEq

/-- The envelopes a bulk enqueue builds, one per payload in input order,
with ids drawn from the supply `gen`. -/
def bulkMessages (payloads : List String) (gen : Nat → String) (now : Nat) :
    List Stored :=
  ((List.range payloads.length).zip payloads).map fun p =>
    Stored.env { id := gen p.1, payload := p.2, enqueuedAt := now, dequeuedAt := none }

/-- `QueuesService.bulkEnqueue` with the pipeline completing in full:
each envelope is `LPUSH`ed in input order (a left fold of cons), then the
enqueued counter is incremented by the batch size. -/
def bulkEnqueue (queueName : String) (payloads : List String)
    (gen : Nat → String) (now : Nat) (s : Store) :
    Except QErr BulkResult × Store :=
  if !validateQueueName queueName then (.error .invalidQueueName, s)
  else
    let msgs := bulkMessages payloads gen now
    let s1 := { s with
      lists := upd s.lists queueName
        (msgs.foldl (fun acc m => m :: acc) (s.lists queueName)) }
    let s2 := { s1 with
      enqCount := upd s1.enqCount queueName
        (s1.enqCount queueName + payloads.length) }
    (.ok { queue := queueName, enqueuedCount := payloads.length,
           messageIds := (List.range payloads.length).map gen,
           timestamp := now }, s2)

/-- `QueuesService.bulkEnqueue` under a store failure mid-batch.  The
code submits the batch through `redis.pipeline()`; a Redis pipeline sends
the queued commands in one round trip but executes them one at a time
with no transactional wrapping (pipelining is not `MULTI`/`EXEC`), so a
failure after `k` commands leaves exactly the first `k` applied.  The
pipeline holds `payloads.length` `LPUSH` commands followed by one
`INCRBY`. -/
def bulkEnqueueFailAfter (queueName : String) (payloads : List String)
    (gen : Nat → String) (now : Nat) (k : Nat) (s : Store) : Store :=
  if !validateQueueName queueName then s
  else
    let msgs := bulkMessages payloads gen now
    let applied := msgs.take k
    let s1 := { s with
      lists := upd s.lists queueName
        (applied.foldl (fun acc m => m :: acc) (s.lists queueName)) }
    if msgs.length + 1 ≤ k then
      { s1 with
        enqCount := upd s1.enqCount queueName
          (s1.enqCount queueName + payloads.length) }
    else s1

/-- The all-or-nothing visibility demanded of a bulk enqueue of `n`
payloads, evaluated between the state before and the state after: either
all `n` messages are visible and the counter grew by `n`, or none are and
the counter is unchanged. -/
def bulkAllOrNothing (queueName : String) (n : Nat) (s0 s1 : Store) : Bool :=
  (decide ((s1.lists queueName).length = (s0.lists queueName).length + n)
      && decide (s1.enqCount queueName = s0.enqCount queueName + n))
  || (decide ((s1.lists queueName).length = (s0.lists queueName).length)
      && decide (s1.enqCount queueName = s0.enqCount queueName))

/-- Result of `QueuesService.purgeQueue`. -/
structure PurgeResult where
  queue : String
  purgedMessages : Nat
  timestamp : Nat
deriving Repr, DecidableEq

/-- `QueuesService.purgeQueue`: read the depth, `DEL` the list key,
report the depth.  Metadata and both counters are left untouched. -/
def purgeQueue (queueName : String) (now : Nat) (s : Store) :
    Except QErr PurgeResult × Store :=
  if !validateQueueName queueName then (.error .invalidQueueName, s)
  else
    let depth := (s.lists queueName).length
    let s1 := { s with lists := upd s.lists queueName [] }
    (.ok { queue := queueName, purgedMessages := depth, timestamp := now }, s1)

/-- Result of `QueuesService.createQueue`. -/
structure CreateResult where
  queue : String
  timestamp : Nat
deriving Repr, DecidableEq

/-- `QueuesService.createQueue`: strict explicit creation, failing when
the metadata key already exists. -/
def createQueue (queueName : String) (now : Nat) (s : Store) :
    Except QErr CreateResult × Store :=
  if !validateQueueName queueName then (.error .invalidQueueName, s)
  else if (s.metadata queueName).isSome then (.error .queueAlreadyExists, s)
  else
    let s1 := { s with
      metadata := upd s.metadata queueName
        (some { name := queueName, createdAt := now }) }
    (.ok { queue := queueName, timestamp := now }, s1)

/-- Age of a resident message as `Date.now() − new Date(enqueuedAt)`;
on a bare payload the timestamp field is missing and the subtraction is
not a number, modelled as `none`. -/
def msgAge (now : Int) (v : Stored) : Option Int :=
  match v with
  | .env m => some (now - (m.enqueuedAt : Int))
  | .raw _ => none

/-- Statistics block of `QueueInfo`. -/
structure QueueStats where
  totalEnqueued : Nat
  totalDequeued : Nat
  oldestMessageAge : Option Int
  newestMessageAge : Option Int
deriving Repr, DecidableEq

/-- Result of `QueuesService.getQueueInfo`. -/
structure QueueInfo where
  name : String
  depth : Nat
  stats : QueueStats
deriving Repr, DecidableEq

/-- `QueuesService.getQueueInfo`: the not-found test is
`depth === 0 && !(await redis.exists(queue:{name}))` — it consults only
the message-list key, never the metadata key.  Ages come from
`LINDEX -1` (oldest) and `LINDEX 0` (newest); counters are read with a
`'0'` fallback. -/
def getQueueInfo (queueName : String) (now : Int) (s : Store) :
    Except QErr QueueInfo × Store :=
  if !validateQueueName queueName then (.error .invalidQueueName, s)
  else
    let xs := s.lists queueName
    let depth := xs.length
    if decide (depth = 0) && xs.isEmpty then (.error .queueNotFound, s)
    else
      let oldestMessageAge := if depth > 0 then (xs.getLast?).bind (fun v => msgAge now v) else none
      let newestMessageAge := if depth > 0 then (xs.head?).bind (fun v => msgAge now v) else none
      (.ok { name := queueName, depth := depth,
             stats := { totalEnqueued := s.enqCount queueName,
                        totalDequeued := s.deqCount queueName,
                        oldestMessageAge := oldestMessageAge,
                        newestMessageAge := newestMessageAge } }, s)

/-- Result of `QueuesService.deleteQueue`. -/
structure DeleteResult where
  queue : String
  deletedMessages : Nat
  timestamp : Nat
deriving Repr, DecidableEq

/-- `QueuesService.deleteQueue`: the not-found test is
`depth === 0 && !metadataExists && !(await redis.exists(queue:{name}))`;
on success the list key, the metadata key and both counter keys are
deleted. -/
def deleteQueue (queueName : String) (now : Nat) (s : Store) :
    Except QErr DeleteResult × Store :=
  if !validateQueueName queueName then (.error .invalidQueueName, s)
  else
    let depth := (s.lists queueName).length
    let metadataExists := (s.metadata queueName).isSome
    if decide (depth = 0) && !metadataExists && (s.lists queueName).isEmpty then
      (.error .queueNotFound, s)
    else
      let s1 := { s with lists := upd s.lists queueName [] }
      let s2 := { s1 with metadata := upd s1.metadata queueName none }
      let s3 := { s2 with enqCount := upd s2.enqCount queueName 0 }
      let s4 := { s3 with deqCount := upd s3.deqCount queueName 0 }
      (.ok { queue := queueName, deletedMessages := depth, timestamp := now }, s4)

/-- `QueuesService.deleteQueue` under a store failure mid-sequence.  The
code issues the four deletions as four separate, sequentially awaited
`DEL` commands — list key, metadata key, enqueued counter, dequeued
counter — with no transaction around them, so a failure after `k`
commands leaves exactly the first `k` applied.  Validation and the
existence test precede the first `DEL`. -/
def deleteQueueFailAfter (queueName : String) (k : Nat) (s : Store) : Store :=
  if !validateQueueName queueName then s
  else if decide ((s.lists queueName).length = 0)
      && !(s.metadata queueName).isSome && (s.lists queueName).isEmpty then s
  else
    let s1 := if 1 ≤ k then { s with lists := upd s.lists queueName [] } else s
    let s2 := if 2 ≤ k then { s1 with metadata := upd s1.metadata queueName none } else s1
    let s3 := if 3 ≤ k then { s2 with enqCount := upd s2.enqCount queueName 0 } else s2
    if 4 ≤ k then { s3 with deqCount := upd s3.deqCount queueName 0 } else s3

/-- Result of `ApiService.enqueue`. -/
structure ApiEnqueueResult where
  queue : String
  timestamp : Nat
deriving Repr, DecidableEq

/-- `ApiService.enqueue` (simple API): validate the name, `LPUSH` the
bare payload (no envelope, no metadata write), `INCR` the enqueued
counter. -/
def apiEnqueue (queueName : String) (payload : String) (now : Nat)
    (s : Store) : Except QErr ApiEnqueueResult × Store :=
  if !validateQueueName queueName then (.error .invalidQueueName, s)
  else
    let s1 := { s with lists := upd s.lists queueName (Stored.raw payload :: s.lists queueName) }
    let s2 := { s1 with enqCount := upd s1.enqCount queueName (s1.enqCount queueName + 1) }
    (.ok { queue := queueName, timestamp := now }, s2)

/-- `ApiService.dequeue` (simple API): validate the name and the timeout
ceiling, `BRPOP` the tail element, `INCR` the dequeued counter on a hit,
and return the parsed element as is — no `dequeuedAt` stamping. -/
def apiDequeue (queueName : String) (timeoutMs : Int) (s : Store) :
    Except QErr (Option Stored) × Store :=
  if !validateQueueName queueName then (.error .invalidQueueName, s)
  else if timeoutMs > 60000 then (.error .timeoutTooLarge, s)
  else
    match (s.lists queueName).getLast? with
    | some v =>
        let s1 := { s with lists := upd s.lists queueName (s.lists queueName).dropLast }
        let s2 := { s1 with deqCount := upd s1.deqCount queueName (s1.deqCount queueName + 1) }
        (.ok (some v), s2)
    | none => (.ok none, s)

/-- `QueuesController.dequeueMessage` request handling:
`parseInt(timeout || '10000', 10)` — modelled for numeric query strings,
with an absent parameter falling back to 10 000 ms. -/
def ctrlDequeueMessage (queueName : String) (timeoutQuery : Option Int)
    (now : Nat) (s : Store) : Except QErr (Option DeqVal) × Store :=
  dequeueMessage queueName (timeoutQuery.getD 10000) now s

/-- `QueuesController.peekMessages` request handling:
`parseInt(count || '10', 10)` — modelled for numeric query strings, with
an absent parameter falling back to 10. -/
def ctrlPeekMessages (queueName : String) (countQuery : Option Int)
    (s : Store) : Except QErr PeekResult × Store :=
  peekMessages queueName (countQuery.getD 10) s

/-- One engine operation addressed at a queue name, covering every entry
point that takes a queue name. -/
inductive QOp where
  | enq (payload : String)
  | deq (timeoutMs : Int)
  | bulk (payloads : List String)
  | peek (count : Int)
  | purge
  | create
  | info
  | del
  | apiEnq (payload : String)
  | apiDeq (timeoutMs : Int)
deriving Repr, DecidableEq

/-- Run one engine operation against the store, keeping the error
outcome and the post-state.  Message ids and timestamps are irrelevant to
the properties quantified over operation sequences and are fixed. -/
def runOp (queueName : String) (op : QOp) (now : Nat) (s : Store) :
    Except QErr Unit × Store :=
  match op with
  | .enq p =>
      let r := enqueueMessage queueName p "id" now s
      (r.1.map fun _ => (), r.2)
  | .deq tm =>
      let r := dequeueMessage queueName tm now s
      (r.1.map fun _ => (), r.2)
  | .bulk ps =>
      let r := bulkEnqueue queueName ps (fun _ => "id") now s
      (r.1.map fun _ => (), r.2)
  | .peek c =>
      let r := peekMessages queueName c s
      (r.1.map fun _ => (), r.2)
  | .purge =>
      let r := purgeQueue queueName now s
      (r.1.map fun _ => (), r.2)
  | .create =>
      let r := createQueue queueName now s
      (r.1.map fun _ => (), r.2)
  | .info =>
      let r := getQueueInfo queueName (now : Int) s
      (r.1.map fun _ => (), r.2)
  | .del =>
      let r := deleteQueue queueName now s
      (r.1.map fun _ => (), r.2)
  | .apiEnq p =>
      let r := apiEnqueue queueName p now s
      (r.1.map fun _ => (), r.2)
  | .apiDeq tm =>
      let r := apiDequeue queueName tm s
      (r.1.map fun _ => (), r.2)

/-- Run a sequence of engine operations sequentially to completion. -/
def applyOps (queueName : String) (ops : List QOp) (s : Store) : Store :=
  ops.foldl (fun st op => (runOp queueName op 0 st).2) s

/-- The quiesced statistics equation: the enqueued counter equals the
depth plus the dequeued counter. -/
def statsBalanced (queueName : String) (s : Store) : Bool :=
  decide (s.enqCount queueName = (s.lists queueName).length + s.deqCount queueName)

/-- Payload carried by a dequeued value. -/
def deqValPayload : DeqVal → String
  | .env m => m.payload
  | .raw p _ => p

/-- Payload carried by a resident stored value. -/
def storedPayload : Stored → String
  | .env m => m.payload
  | .raw p => p

/-- `n` dequeue calls racing on one queue, in the order the store
serializes their atomic `BRPOP` steps. -/
def runDequeues (queueName : String) (tm : Int) (n : Nat) (s : Store) :
    List (Except QErr (Option DeqVal)) × Store :=
  match n with
  | 0 => ([], s)
  | Nat.succ k =>
      let r := dequeueMessage queueName tm 0 s
      let rest := runDequeues queueName tm k r.2
      (r.1 :: rest.1, rest.2)

/-- The payloads actually delivered (non-timeout, non-error outcomes)
among a list of dequeue results. -/
def deliveredPayloads (rs : List (Except QErr (Option DeqVal))) : List String :=
  rs.filterMap fun r =>
    match r with
    | .ok (some v) => some (deqValPayload v)
    | _ => none

/-- Whether a simple-API dequeue result is an envelope whose `dequeuedAt`
is present and at least its `enqueuedAt`. -/
def isOrderedEnvelopeResult : Except QErr (Option Stored) → Bool
  | .ok (some (.env m)) =>
      match m.dequeuedAt with
      | some d => decide (m.enqueuedAt ≤ d)
      | none => false
  | _ => false

/-!
## Helper lemmas
-/

theorem upd_same {α : Type} (f : String → α) (k : String) (v : α) :
    upd f k v k = v := by
  simp [upd]

theorem upd_apply {α : Type} (f : String → α) (k k' : String) (v : α) :
    upd f k v k' = if k' = k then v else f k' := rfl

theorem validateQueueName_eq_spec (name : String) :
    validateQueueName name = specQueueNameMatches name := by
  have hlen : name.length = name.toList.length := rfl
  unfold validateQueueName specQueueNameMatches
  rw [hlen]
  cases hx : name.toList with
  | nil => simp
  | cons c cs => simp [Nat.succ_le_iff, Bool.and_comm]

theorem enqueueMessage_fst (q p i : String) (t : Nat) (s : Store)
    (hq : validateQueueName q = true) :
    (enqueueMessage q p i t s).1 =
      .ok { queue := q, messageId := i, timestamp := t } := by
  simp [enqueueMessage, hq]

theorem enqueueMessage_lists (q p i : String) (t : Nat) (s : Store)
    (hq : validateQueueName q = true) :
    ((enqueueMessage q p i t s).2).lists q =
      Stored.env { id := i, payload := p, enqueuedAt := t, dequeuedAt := none }
        :: s.lists q := by
  simp only [enqueueMessage, hq, Bool.not_true]
  rw [if_neg (by simp)]
  split <;> simp [upd]

theorem enqueueMessage_enqCount (q p i : String) (t : Nat) (s : Store)
    (hq : validateQueueName q = true) :
    ((enqueueMessage q p i t s).2).enqCount q = s.enqCount q + 1 := by
  simp only [enqueueMessage, hq, Bool.not_true]
  rw [if_neg (by simp)]
  split <;> simp [upd]

theorem enqueueMessage_deqCount (q p i : String) (t : Nat) (s : Store)
    (hq : validateQueueName q = true) :
    ((enqueueMessage q p i t s).2).deqCount q = s.deqCount q := by
  simp only [enqueueMessage, hq, Bool.not_true]
  rw [if_neg (by simp)]
  split <;> simp [upd]

theorem dequeueMessage_empty (q : String) (tm : Int) (now : Nat) (s : Store)
    (hq : validateQueueName q = true) (htm : tm ≤ 60000)
    (hs : s.lists q = []) :
    dequeueMessage q tm now s = (.ok none, s) := by
  simp [dequeueMessage, hq, hs, show ¬ (tm > 60000) by omega]

theorem dequeueMessage_concat (q : String) (tm : Int) (now : Nat) (s : Store)
    (ys : List Stored) (v : Stored)
    (hq : validateQueueName q = true) (htm : tm ≤ 60000)
    (hs : s.lists q = ys ++ [v]) :
    (dequeueMessage q tm now s).1 = .ok (some (stampDequeued v now)) ∧
    ((dequeueMessage q tm now s).2).lists q = ys ∧
    ((dequeueMessage q tm now s).2).deqCount q = s.deqCount q + 1 ∧
    ((dequeueMessage q tm now s).2).enqCount q = s.enqCount q := by
  simp [dequeueMessage, hq, hs, show ¬ (tm > 60000) by omega, upd]

theorem runOp_invalid (name : String) (op : QOp) (now : Nat) (s : Store)
    (h : validateQueueName name = false) :
    runOp name op now s = (.error .invalidQueueName, s) := by
  cases op <;>
    simp [runOp, enqueueMessage, dequeueMessage, bulkEnqueue, peekMessages,
      purgeQueue, createQueue, getQueueInfo, deleteQueue, apiEnqueue,
      apiDequeue, h, Except.map]

theorem foldl_cons_eq_reverse_append (msgs init : List Stored) :
    msgs.foldl (fun acc m => m :: acc) init = msgs.reverse ++ init := by
  induction msgs generalizing init with
  | nil => simp
  | cons a l ih => simp [List.foldl, ih]

theorem bulkMessages_length (payloads : List String) (gen : Nat → String)
    (now : Nat) :
    (bulkMessages payloads gen now).length = payloads.length := by
  simp [bulkMessages]

theorem bulkEnqueue_state (q : String) (ps : List String) (gen : Nat → String)
    (now : Nat) (s : Store) (hq : validateQueueName q = true) :
    ((bulkEnqueue q ps gen now s).2).lists q
        = (bulkMessages ps gen now).reverse ++ s.lists q ∧
    ((bulkEnqueue q ps gen now s).2).enqCount q = s.enqCount q + ps.length ∧
    ((bulkEnqueue q ps gen now s).2).deqCount q = s.deqCount q := by
  simp [bulkEnqueue, hq, upd, foldl_cons_eq_reverse_append]

theorem peekMessages_snd (q : String) (c : Int) (s : Store) :
    (peekMessages q c s).2 = s := by
  simp only [peekMessages]
  split <;> rfl

theorem getQueueInfo_snd (q : String) (now : Int) (s : Store) :
    (getQueueInfo q now s).2 = s := by
  simp only [getQueueInfo]
  split
  · rfl
  · split <;> rfl

theorem purgeQueue_state (q : String) (now : Nat) (s : Store)
    (hq : validateQueueName q = true) :
    ((purgeQueue q now s).2).lists q = [] ∧
    ((purgeQueue q now s).2).enqCount = s.enqCount ∧
    ((purgeQueue q now s).2).deqCount = s.deqCount := by
  simp [purgeQueue, hq, upd]

theorem createQueue_counters (q : String) (now : Nat) (s : Store) :
    ((createQueue q now s).2).lists = s.lists ∧
    ((createQueue q now s).2).enqCount = s.enqCount ∧
    ((createQueue q now s).2).deqCount = s.deqCount := by
  simp only [createQueue]
  split
  · exact ⟨rfl, rfl, rfl⟩
  · split
    · exact ⟨rfl, rfl, rfl⟩
    · exact ⟨rfl, rfl, rfl⟩

theorem apiEnqueue_state (q p : String) (now : Nat) (s : Store)
    (hq : validateQueueName q = true) :
    (apiEnqueue q p now s).1 = .ok { queue := q, timestamp := now } ∧
    ((apiEnqueue q p now s).2).lists q = Stored.raw p :: s.lists q ∧
    ((apiEnqueue q p now s).2).enqCount q = s.enqCount q + 1 ∧
    ((apiEnqueue q p now s).2).deqCount q = s.deqCount q := by
  simp [apiEnqueue, hq, upd]

theorem apiDequeue_empty (q : String) (tm : Int) (s : Store)
    (hq : validateQueueName q = true) (htm : tm ≤ 60000)
    (hs : s.lists q = []) :
    apiDequeue q tm s = (.ok none, s) := by
  simp [apiDequeue, hq, hs, show ¬ (tm > 60000) by omega]

theorem apiDequeue_concat (q : String) (tm : Int) (s : Store)
    (ys : List Stored) (v : Stored)
    (hq : validateQueueName q = true) (htm : tm ≤ 60000)
    (hs : s.lists q = ys ++ [v]) :
    (apiDequeue q tm s).1 = .ok (some v) ∧
    ((apiDequeue q tm s).2).lists q = ys ∧
    ((apiDequeue q tm s).2).deqCount q = s.deqCount q + 1 ∧
    ((apiDequeue q tm s).2).enqCount q = s.enqCount q := by
  simp [apiDequeue, hq, hs, show ¬ (tm > 60000) by omega, upd]

theorem le_upd_add (f : String → Nat) (q n' : String) (k : Nat) :
    f n' ≤ upd f q (f q + k) n' := by
  simp only [upd]
  split
  · rename_i h; subst h; omega
  · exact Nat.le_refl _

theorem deleteQueue_snd (q : String) (now : Nat) (s : Store)
    (hq : validateQueueName q = true) :
    (deleteQueue q now s).2 = s ∨
    (((deleteQueue q now s).2).lists q = [] ∧
     ((deleteQueue q now s).2).enqCount q = 0 ∧
     ((deleteQueue q now s).2).deqCount q = 0 ∧
     ((deleteQueue q now s).2).metadata q = none) := by
  simp only [deleteQueue, hq, Bool.not_true]
  rw [if_neg (by simp)]
  split
  · left; rfl
  · right; simp [upd]

theorem runOp_counters_mono (q : String) (op : QOp) (now : Nat) (s : Store)
    (n' : String) (hop : op ≠ QOp.del) :
    s.enqCount n' ≤ ((runOp q op now s).2).enqCount n' ∧
    s.deqCount n' ≤ ((runOp q op now s).2).deqCount n' := by
  cases hv : validateQueueName q with
  | false =>
      rw [runOp_invalid q op now s hv]
      exact ⟨Nat.le_refl _, Nat.le_refl _⟩
  | true =>
    cases op with
    | del => exact absurd rfl hop
    | enq p =>
        simp only [runOp, enqueueMessage, hv, Bool.not_true]
        rw [if_neg (by simp)]
        split <;> exact ⟨le_upd_add _ _ _ 1, Nat.le_refl _⟩
    | deq tm =>
        simp only [runOp, dequeueMessage, hv, Bool.not_true]
        rw [if_neg (by simp)]
        split
        · exact ⟨Nat.le_refl _, Nat.le_refl _⟩
        · split
          · exact ⟨Nat.le_refl _, le_upd_add _ _ _ 1⟩
          · exact ⟨Nat.le_refl _, Nat.le_refl _⟩
    | bulk ps =>
        simp only [runOp, bulkEnqueue, hv, Bool.not_true]
        rw [if_neg (by simp)]
        exact ⟨le_upd_add _ _ _ _, Nat.le_refl _⟩
    | peek c =>
        simp only [runOp, peekMessages_snd]
        exact ⟨Nat.le_refl _, Nat.le_refl _⟩
    | purge =>
        simp only [runOp, purgeQueue, hv, Bool.not_true]
        rw [if_neg (by simp)]
        exact ⟨Nat.le_refl _, Nat.le_refl _⟩
    | create =>
        obtain ⟨-, h2, h3⟩ := createQueue_counters q now s
        simp only [runOp]
        rw [h2, h3]
        exact ⟨Nat.le_refl _, Nat.le_refl _⟩
    | info =>
        simp only [runOp, getQueueInfo_snd]
        exact ⟨Nat.le_refl _, Nat.le_refl _⟩
    | apiEnq p =>
        simp only [runOp, apiEnqueue, hv, Bool.not_true]
        rw [if_neg (by simp)]
        exact ⟨le_upd_add _ _ _ 1, Nat.le_refl _⟩
    | apiDeq tm =>
        simp only [runOp, apiDequeue, hv, Bool.not_true]
        rw [if_neg (by simp)]
        split
        · exact ⟨Nat.le_refl _, Nat.le_refl _⟩
        · split
          · exact ⟨Nat.le_refl _, le_upd_add _ _ _ 1⟩
          · exact ⟨Nat.le_refl _, Nat.le_refl _⟩

theorem statsBalanced_def (q : String) (s : Store) :
    statsBalanced q s = true ↔
      s.enqCount q = (s.lists q).length + s.deqCount q := by
  simp [statsBalanced]

theorem runOp_balanced (q : String) (op : QOp) (now : Nat) (s : Store)
    (hop : op ≠ QOp.purge) (h : statsBalanced q s = true) :
    statsBalanced q ((runOp q op now s).2) = true := by
  rw [statsBalanced_def] at h ⊢
  cases hv : validateQueueName q with
  | false => rw [runOp_invalid q op now s hv]; exact h
  | true =>
    cases op with
    | purge => exact absurd rfl hop
    | enq p =>
        have h1 := enqueueMessage_lists q p "id" now s hv
        have h2 := enqueueMessage_enqCount q p "id" now s hv
        have h3 := enqueueMessage_deqCount q p "id" now s hv
        simp only [runOp]
        rw [h2, h1, h3]
        simp only [List.length_cons]
        omega
    | deq tm =>
        simp only [runOp]
        by_cases htm : tm > 60000
        · have : dequeueMessage q tm now s = (.error .timeoutTooLarge, s) := by
            simp [dequeueMessage, hv, htm]
          rw [this]; exact h
        · rcases List.eq_nil_or_concat (s.lists q) with hnil | ⟨ys, v, hys⟩
          · rw [dequeueMessage_empty q tm now s hv (by omega) hnil]; exact h
          · rw [List.concat_eq_append] at hys
            obtain ⟨-, hl, hd, he⟩ :=
              dequeueMessage_concat q tm now s ys v hv (by omega) hys
            rw [he, hl, hd]
            rw [hys] at h
            simp only [List.length_append, List.length_cons, List.length_nil] at h
            omega
    | bulk ps =>
        obtain ⟨h1, h2, h3⟩ := bulkEnqueue_state q ps (fun _ => "id") now s hv
        simp only [runOp]
        rw [h2, h1, h3]
        simp only [List.length_append, List.length_reverse, bulkMessages_length]
        omega
    | peek c =>
        simp only [runOp, peekMessages_snd]; exact h
    | create =>
        obtain ⟨h1, h2, h3⟩ := createQueue_counters q now s
        simp only [runOp]
        rw [h1, h2, h3]
        exact h
    | info =>
        simp only [runOp, getQueueInfo_snd]; exact h
    | del =>
        simp only [runOp]
        rcases deleteQueue_snd q now s hv with hsame | ⟨h1, h2, h3, -⟩
        · rw [hsame]; exact h
        · rw [h1, h2, h3]; rfl
    | apiEnq p =>
        obtain ⟨-, h1, h2, h3⟩ := apiEnqueue_state q p now s hv
        simp only [runOp]
        rw [h2, h1, h3]
        simp only [List.length_cons]
        omega
    | apiDeq tm =>
        simp only [runOp]
        by_cases htm : tm > 60000
        · have : apiDequeue q tm s = (.error .timeoutTooLarge, s) := by
            simp [apiDequeue, hv, htm]
          rw [this]; exact h
        · rcases List.eq_nil_or_concat (s.lists q) with hnil | ⟨ys, v, hys⟩
          · rw [apiDequeue_empty q tm s hv (by omega) hnil]; exact h
          · rw [List.concat_eq_append] at hys
            obtain ⟨-, hl, hd, he⟩ :=
              apiDequeue_concat q tm s ys v hv (by omega) hys
            rw [he, hl, hd]
            rw [hys] at h
            simp only [List.length_append, List.length_cons, List.length_nil] at h
            omega

theorem applyOps_cons (q : String) (op : QOp) (ops : List QOp) (s : Store) :
    applyOps q (op :: ops) s = applyOps q ops ((runOp q op 0 s).2) := rfl

theorem applyOps_balanced (q : String) (ops : List QOp)
    (hp : ∀ op ∈ ops, op ≠ QOp.purge) (s : Store)
    (h : statsBalanced q s = true) :
    statsBalanced q (applyOps q ops s) = true := by
  induction ops generalizing s with
  | nil => exact h
  | cons op l ih =>
      rw [applyOps_cons]
      exact ih (fun o ho => hp o (List.mem_cons_of_mem _ ho)) _
        (runOp_balanced q op 0 s (hp op (List.mem_cons_self _ _)) h)

theorem lrange_neg (xs : List Stored) (m : Nat) (hm : 1 ≤ m) :
    lrange xs (-(m : Int)) (-1) = xs.drop (xs.length - min m xs.length) := by
  unfold lrange
  simp only
  rw [if_pos (by omega : -(m : Int) < 0), if_pos (by omega : (-1 : Int) < 0)]
  rcases Nat.eq_zero_or_pos xs.length with h0 | hpos
  · rw [if_pos (by omega)]
    have : xs = [] := List.length_eq_zero.mp h0
    simp [this]
  · rw [if_neg (by omega)]
    have hs : (max ((xs.length : Int) + -(m : Int)) 0).toNat
        = xs.length - min m xs.length := by
      omega
    have he : ((min ((xs.length : Int) + -1) ((xs.length : Int) - 1))
        - (max ((xs.length : Int) + -(m : Int)) 0) + 1).toNat = min m xs.length := by
      omega
    rw [hs, he]
    have hlen : (xs.drop (xs.length - min m xs.length)).length = min m xs.length := by
      rw [List.length_drop]; omega
    exact List.take_of_length_le (le_of_eq hlen)

theorem lrange_reverse_take (xs : List Stored) (m : Nat) (hm : 1 ≤ m) :
    (lrange xs (-(m : Int)) (-1)).reverse = xs.reverse.take m := by
  rw [lrange_neg xs m hm, List.reverse_drop]
  have h1 : xs.length - (xs.length - min m xs.length) = min m xs.length := by omega
  rw [h1]
  rcases le_total m xs.length with h | h
  · rw [min_eq_left h]
  · rw [min_eq_right h]
    rw [List.take_of_length_le (by simp),
        List.take_of_length_le (by simpa using h)]

theorem deqValPayload_stamp (v : Stored) (t : Nat) :
    deqValPayload (stampDequeued v t) = storedPayload v := by
  cases v <;> rfl

theorem runDequeues_delivers (q : String) (tm : Int)
    (hq : validateQueueName q = true) (htm : tm ≤ 60000) :
    ∀ (n : Nat) (s : Store),
      deliveredPayloads (runDequeues q tm n s).1
        = ((s.lists q).reverse.take n).map storedPayload := by
  intro n
  induction n with
  | zero => intro s; simp [runDequeues, deliveredPayloads]
  | succ k ih =>
      intro s
      rcases List.eq_nil_or_concat (s.lists q) with hnil | ⟨ys, v, hys⟩
      · rw [runDequeues]
        simp only [dequeueMessage_empty q tm 0 s hq htm hnil]
        simp only [deliveredPayloads, List.filterMap_cons]
        rw [← deliveredPayloads]
        rw [ih s, hnil]
        simp
      · rw [List.concat_eq_append] at hys
        obtain ⟨hfst, hl, -, -⟩ := dequeueMessage_concat q tm 0 s ys v hq htm hys
        rw [runDequeues]
        simp only [hfst]
        simp only [deliveredPayloads, List.filterMap_cons]
        rw [← deliveredPayloads, ih _, hl, hys]
        simp [deqValPayload_stamp]

/-!
## Claim theorems
-/

/-- C1: FIFO order — for every queue, enqueuing payloads A, B, C in that
order (each `LPUSH` going to the head of the list) and then dequeuing
three times yields A, B, C in that order, because `BRPOP` always removes
and returns the tail (oldest-enqueued) element. -/
theorem C1_fifo_order (q pa pb pc i1 i2 i3 : String) (t1 t2 t3 u1 u2 u3 : Nat)
    (tm : Int) (hq : validateQueueName q = true) (htm : tm ≤ 60000)
    (s0 : Store) (h0 : s0.lists q = []) :
    ∀ s1 s2 s3 r1 r2 r3,
      s1 = (enqueueMessage q pa i1 t1 s0).2 →
      s2 = (enqueueMessage q pb i2 t2 s1).2 →
      s3 = (enqueueMessage q pc i3 t3 s2).2 →
      r1 = dequeueMessage q tm u1 s3 →
      r2 = dequeueMessage q tm u2 r1.2 →
      r3 = dequeueMessage q tm u3 r2.2 →
      r1.1 = .ok (some (.env { id := i1, payload := pa, enqueuedAt := t1,
                               dequeuedAt := some u1 })) ∧
      r2.1 = .ok (some (.env { id := i2, payload := pb, enqueuedAt := t2,
                               dequeuedAt := some u2 })) ∧
      r3.1 = .ok (some (.env { id := i3, payload := pc, enqueuedAt := t3,
                               dequeuedAt := some u3 })) := by
  intro s1 s2 s3 r1 r2 r3 hs1 hs2 hs3 hr1 hr2 hr3
  have e1 := enqueueMessage_lists q pa i1 t1 s0 hq
  rw [← hs1, h0] at e1
  have e2 := enqueueMessage_lists q pb i2 t2 s1 hq
  rw [← hs2, e1] at e2
  have e3 := enqueueMessage_lists q pc i3 t3 s2 hq
  rw [← hs3, e2] at e3
  obtain ⟨f1, l1, -, -⟩ := dequeueMessage_concat q tm u1 s3
    [Stored.env { id := i3, payload := pc, enqueuedAt := t3, dequeuedAt := none },
     Stored.env { id := i2, payload := pb, enqueuedAt := t2, dequeuedAt := none }]
    (Stored.env { id := i1, payload := pa, enqueuedAt := t1, dequeuedAt := none })
    hq htm (by rw [e3]; rfl)
  rw [← hr1] at f1 l1
  obtain ⟨f2, l2, -, -⟩ := dequeueMessage_concat q tm u2 r1.2
    [Stored.env { id := i3, payload := pc, enqueuedAt := t3, dequeuedAt := none }]
    (Stored.env { id := i2, payload := pb, enqueuedAt := t2, dequeuedAt := none })
    hq htm (by rw [l1]; rfl)
  rw [← hr2] at f2 l2
  obtain ⟨f3, -, -, -⟩ := dequeueMessage_concat q tm u3 r2.2
    [] (Stored.env { id := i3, payload := pc, enqueuedAt := t3, dequeuedAt := none })
    hq htm (by rw [l2]; rfl)
  rw [← hr3] at f3
  exact ⟨f1, f2, f3⟩

/-- C1 witness: the FIFO theorem evaluated on queue `orders` with
payloads A, B, C. -/
theorem C1_fifo_order_witness :
    (dequeueMessage "orders" 1000 4
        (enqueueMessage "orders" "C" "i3" 3
          (enqueueMessage "orders" "B" "i2" 2
            (enqueueMessage "orders" "A" "i1" 1 Store.empty).2).2).2).1
      = .ok (some (.env { id := "i1", payload := "A", enqueuedAt := 1,
                          dequeuedAt := some 4 })) :=
  (C1_fifo_order "orders" "A" "B" "C" "i1" "i2" "i3" 1 2 3 4 5 6 1000
    (by decide) (by decide) Store.empty rfl _ _ _ _ _ _
    rfl rfl rfl rfl rfl rfl).1

/-- C2 (amended): enqueue-then-dequeue on an otherwise-empty queue
returns the same payload at every entry point; the internal entry point
returns an envelope with `enqueuedAt = t1` and `dequeuedAt = t2 ≥ t1`,
while the simple API entry point stores and returns the bare payload
with no envelope, so no timestamps appear there. -/
theorem C2_round_trip (q p i : String) (t1 t2 : Nat) (tm : Int)
    (hq : validateQueueName q = true) (hmono : t1 ≤ t2) (htm : tm ≤ 60000)
    (s0 : Store) (h0 : s0.lists q = []) :
    ((dequeueMessage q tm t2 (enqueueMessage q p i t1 s0).2).1 =
        .ok (some (.env { id := i, payload := p, enqueuedAt := t1,
                          dequeuedAt := some t2 })) ∧
      t1 ≤ t2) ∧
    (apiDequeue q tm (apiEnqueue q p t1 s0).2).1 = .ok (some (.raw p)) := by
  refine ⟨⟨?_, hmono⟩, ?_⟩
  · have e1 := enqueueMessage_lists q p i t1 s0 hq
    rw [h0] at e1
    exact (dequeueMessage_concat q tm t2 (enqueueMessage q p i t1 s0).2 []
      (Stored.env { id := i, payload := p, enqueuedAt := t1, dequeuedAt := none })
      hq htm (by rw [e1]; rfl)).1
  · obtain ⟨-, a1, -, -⟩ := apiEnqueue_state q p t1 s0 hq
    rw [h0] at a1
    exact (apiDequeue_concat q tm (apiEnqueue q p t1 s0).2 []
      (Stored.raw p) hq htm (by rw [a1]; rfl)).1

/-- C2 witness: the round trip evaluated on queue `q` and payload `p`. -/
theorem C2_round_trip_witness :
    (dequeueMessage "q" 1000 2 (enqueueMessage "q" "p" "i" 1 Store.empty).2).1 =
        .ok (some (.env { id := "i", payload := "p", enqueuedAt := 1,
                          dequeuedAt := some 2 })) ∧
    (apiDequeue "q" 1000 (apiEnqueue "q" "p" 1 Store.empty).2).1 =
        .ok (some (.raw "p")) :=
  ⟨((C2_round_trip "q" "p" "i" 1 2 1000 (by decide) (by decide) (by decide)
      Store.empty rfl).1).1,
   (C2_round_trip "q" "p" "i" 1 2 1000 (by decide) (by decide) (by decide)
      Store.empty rfl).2⟩

/-- C2 counterexample: at the simple API entry point the dequeue result
is the bare payload, not an envelope carrying `enqueuedAt`/`dequeuedAt`,
so the claimed envelope inequality does not hold at every entry point. -/
theorem C2_api_no_envelope :
    (apiDequeue "q" 1000 (apiEnqueue "q" "p" 0 Store.empty).2).1 =
        .ok (some (Stored.raw "p")) ∧
    isOrderedEnvelopeResult
        (apiDequeue "q" 1000 (apiEnqueue "q" "p" 0 Store.empty).2).1 = false :=
  ⟨rfl, rfl⟩

/-- C3: exactly-once delivery — with one message in the queue, of two
racing dequeues (serialized by the store's atomic `BRPOP`) the first
receives the message and the second times out; and in general, `n`
serialized dequeue calls deliver exactly the oldest-first prefix of the
queue contents, each message to exactly one caller. -/
theorem C3_exactly_once_delivery (q : String) (v : Stored) (tm1 tm2 : Int)
    (u1 u2 : Nat) (hq : validateQueueName q = true)
    (h1 : tm1 ≤ 60000) (h2 : tm2 ≤ 60000) (s : Store) (hs : s.lists q = [v]) :
    ((dequeueMessage q tm1 u1 s).1 = .ok (some (stampDequeued v u1)) ∧
     (dequeueMessage q tm2 u2 (dequeueMessage q tm1 u1 s).2).1 = .ok none) ∧
    (∀ (n : Nat) (s0 : Store),
      deliveredPayloads (runDequeues q tm1 n s0).1
        = ((s0.lists q).reverse.take n).map storedPayload) := by
  refine ⟨⟨?_, ?_⟩, runDequeues_delivers q tm1 hq h1⟩
  · exact (dequeueMessage_concat q tm1 u1 s [] v hq h1 (by rw [hs]; rfl)).1
  · obtain ⟨-, l1, -, -⟩ :=
      dequeueMessage_concat q tm1 u1 s [] v hq h1 (by rw [hs]; rfl)
    rw [dequeueMessage_empty q tm2 u2 _ hq h2 l1]

/-- C3 witness: the two-racer property evaluated on a queue holding one
concrete message. -/
theorem C3_exactly_once_delivery_witness :
    (dequeueMessage "q" 1000 7 (enqueueMessage "q" "only" "i" 0 Store.empty).2).1
      = .ok (some (stampDequeued
          (Stored.env { id := "i", payload := "only", enqueuedAt := 0,
                        dequeuedAt := none }) 7)) ∧
    (dequeueMessage "q" 1000 8
        (dequeueMessage "q" 1000 7
          (enqueueMessage "q" "only" "i" 0 Store.empty).2).2).1 = .ok none :=
  (C3_exactly_once_delivery "q"
    (Stored.env { id := "i", payload := "only", enqueuedAt := 0, dequeuedAt := none })
    1000 1000 7 8 (by decide) (by decide) (by decide)
    (enqueueMessage "q" "only" "i" 0 Store.empty).2 (by decide)).1

/-- C4: the bulk enqueue of two payloads submitted through a Redis
pipeline, evaluated at a store failure after the first pipelined command:
one of the two messages is visible and the counter is unchanged, so the
batch is neither all visible nor none visible — the pipeline gives no
all-or-nothing guarantee. -/
theorem C4_pipeline_partial_visibility :
    ((bulkEnqueueFailAfter "q" ["a", "b"] (fun _ => "m") 0 1 Store.empty).lists "q").length
        = 1 ∧
    (bulkEnqueueFailAfter "q" ["a", "b"] (fun _ => "m") 0 1 Store.empty).enqCount "q"
        = 0 ∧
    bulkAllOrNothing "q" 2 Store.empty
        (bulkEnqueueFailAfter "q" ["a", "b"] (fun _ => "m") 0 1 Store.empty)
      = false :=
  ⟨rfl, rfl, rfl⟩

/-- C5 (amended): the per-queue counters never decrease under every
engine operation other than queue deletion; and after any purge-free
sequence of operations run sequentially to completion from an empty
store, `totalEnqueued − totalDequeued` equals the queue's current depth.
(Purge clears the list while leaving the counters, so sequences
containing purge can violate the equation.) -/
theorem C5_statistics_invariant (qn : String) (ops : List QOp)
    (hp : ∀ op ∈ ops, op ≠ QOp.purge) :
    (∀ (q : String) (op : QOp) (now : Nat) (s : Store) (n' : String),
        op ≠ QOp.del →
        s.enqCount n' ≤ ((runOp q op now s).2).enqCount n' ∧
        s.deqCount n' ≤ ((runOp q op now s).2).deqCount n') ∧
    ((applyOps qn ops Store.empty).enqCount qn : Int)
        - ((applyOps qn ops Store.empty).deqCount qn : Int)
      = (((applyOps qn ops Store.empty).lists qn).length : Int) := by
  constructor
  · exact fun q op now s n' hop => runOp_counters_mono q op now s n' hop
  · have hb := applyOps_balanced qn ops hp Store.empty rfl
    rw [statsBalanced_def] at hb
    omega

/-- C5 witness: the quiesced equation evaluated after two enqueues and
one dequeue. -/
theorem C5_statistics_invariant_witness :
    ((applyOps "q" [QOp.enq "a", QOp.enq "b", QOp.deq 1000] Store.empty).enqCount "q" : Int)
        - ((applyOps "q" [QOp.enq "a", QOp.enq "b", QOp.deq 1000] Store.empty).deqCount "q" : Int)
      = (((applyOps "q" [QOp.enq "a", QOp.enq "b", QOp.deq 1000] Store.empty).lists "q").length : Int) :=
  (C5_statistics_invariant "q" [QOp.enq "a", QOp.enq "b", QOp.deq 1000]
    (by decide)).2

/-- C5 counterexample: after enqueue-then-purge the quiesced equation
fails — the enqueued counter is 1 while the depth and the dequeued
counter are 0. -/
theorem C5_purge_breaks_balance :
    statsBalanced "q" (applyOps "q" [QOp.enq "a", QOp.purge] Store.empty) = false :=
  rfl

/-- C6 (amended): queue info fails with `QueueNotFound` exactly when the
message list is empty/absent — the metadata record is not consulted —
while queue delete fails with `QueueNotFound` exactly when the list is
absent and no metadata exists; a delete whose four `DEL` commands all
execute removes the list, the metadata and both counters, but the four
deletions are separate sequential commands, so a store failure after the
first one leaves the list removed while the metadata record survives — a
partial deletion. -/
theorem C6_info_delete_existence (q : String) (now : Int) (tnow : Nat)
    (s : Store) (hq : validateQueueName q = true) :
    ((getQueueInfo q now s).1 = .error .queueNotFound ↔ s.lists q = []) ∧
    ((deleteQueue q tnow s).1 = .error .queueNotFound ↔
        (s.lists q = [] ∧ s.metadata q = none)) ∧
    (¬ (s.lists q = [] ∧ s.metadata q = none) →
        ((deleteQueue q tnow s).2).lists q = [] ∧
        ((deleteQueue q tnow s).2).metadata q = none ∧
        ((deleteQueue q tnow s).2).enqCount q = 0 ∧
        ((deleteQueue q tnow s).2).deqCount q = 0) ∧
    ((s.metadata q).isSome = true →
        (deleteQueueFailAfter q 1 s).lists q = [] ∧
        (deleteQueueFailAfter q 1 s).metadata q = s.metadata q ∧
        (deleteQueueFailAfter q 1 s).enqCount q = s.enqCount q ∧
        (deleteQueueFailAfter q 1 s).deqCount q = s.deqCount q) := by
  refine ⟨?_, ?_, ?_, ?_⟩
  · by_cases hxs : s.lists q = []
    · simp [getQueueInfo, hq, hxs]
    · simp [getQueueInfo, hq, hxs, List.isEmpty_iff]
  · by_cases hxs : s.lists q = []
    · by_cases hmd : s.metadata q = none
      · simp [deleteQueue, hq, hxs, hmd]
      · simp [deleteQueue, hq, hxs, hmd, Option.isSome_iff_ne_none]
    · simp [deleteQueue, hq, hxs, List.isEmpty_iff]
  · intro hne
    have hcond : ¬ ((s.lists q = [] ∧ s.metadata q = none) ∧ s.lists q = []) :=
      fun h => hne h.1
    simp [deleteQueue, hq, hcond, upd]
  · intro hmd
    simp [deleteQueueFailAfter, hq, hmd, upd]

/-- C6 witness: on a store holding one message and metadata for `q`,
info does not fail, a completed delete removes all four keys, and a
delete failing after its first `DEL` command keeps the metadata. -/
theorem C6_info_delete_existence_witness :
    ¬ ((enqueueMessage "q" "a" "i" 0 Store.empty).2.lists "q" = [] ∧
       (enqueueMessage "q" "a" "i" 0 Store.empty).2.metadata "q" = none) ∧
    (((deleteQueue "q" 1 (enqueueMessage "q" "a" "i" 0 Store.empty).2).2).lists "q" = [] ∧
     ((deleteQueue "q" 1 (enqueueMessage "q" "a" "i" 0 Store.empty).2).2).metadata "q" = none ∧
     ((deleteQueue "q" 1 (enqueueMessage "q" "a" "i" 0 Store.empty).2).2).enqCount "q" = 0 ∧
     ((deleteQueue "q" 1 (enqueueMessage "q" "a" "i" 0 Store.empty).2).2).deqCount "q" = 0) ∧
    ((deleteQueueFailAfter "q" 1 (enqueueMessage "q" "a" "i" 0 Store.empty).2).lists "q" = [] ∧
     (deleteQueueFailAfter "q" 1 (enqueueMessage "q" "a" "i" 0 Store.empty).2).metadata "q"
       = (enqueueMessage "q" "a" "i" 0 Store.empty).2.metadata "q" ∧
     (deleteQueueFailAfter "q" 1 (enqueueMessage "q" "a" "i" 0 Store.empty).2).enqCount "q"
       = (enqueueMessage "q" "a" "i" 0 Store.empty).2.enqCount "q" ∧
     (deleteQueueFailAfter "q" 1 (enqueueMessage "q" "a" "i" 0 Store.empty).2).deqCount "q"
       = (enqueueMessage "q" "a" "i" 0 Store.empty).2.deqCount "q") :=
  ⟨by decide,
   (C6_info_delete_existence "q" 0 1 (enqueueMessage "q" "a" "i" 0 Store.empty).2
      (by decide)).2.2.1 (by decide),
   (C6_info_delete_existence "q" 0 1 (enqueueMessage "q" "a" "i" 0 Store.empty).2
      (by decide)).2.2.2 (by decide)⟩

/-- C6 counterexample, refuting both parts of the original claim.
First, after an explicit create the metadata record exists, yet info
still fails with `QueueNotFound` while delete succeeds, so info's
existence test is not "neither list nor metadata exists" and differs
from delete's.  Second, the four deletions are not one logical unit: on
a store holding one message plus metadata, a store failure after the
first of the four sequential `DEL` commands leaves the list removed but
the metadata record and the enqueued counter still present — a partial
deletion results. -/
theorem C6_info_ignores_metadata_and_partial_delete :
    ((createQueue "q" 0 Store.empty).2.metadata "q").isSome = true ∧
    (getQueueInfo "q" 0 (createQueue "q" 0 Store.empty).2).1
        = .error .queueNotFound ∧
    (deleteQueue "q" 0 (createQueue "q" 0 Store.empty).2).1
        = .ok { queue := "q", deletedMessages := 0, timestamp := 0 } ∧
    (deleteQueueFailAfter "q" 1 (enqueueMessage "q" "a" "i" 0 Store.empty).2).lists "q"
        = [] ∧
    ((deleteQueueFailAfter "q" 1 (enqueueMessage "q" "a" "i" 0 Store.empty).2).metadata "q").isSome
        = true ∧
    (deleteQueueFailAfter "q" 1 (enqueueMessage "q" "a" "i" 0 Store.empty).2).enqCount "q"
        = 1 :=
  ⟨rfl, rfl, rfl, rfl, rfl, rfl⟩

/-- C7: the dequeue path hands `Math.floor(timeoutMs / 1000)` seconds to
`BRPOP`, so every requested timeout below 1000 ms becomes 0 seconds —
which Redis interprets as "block indefinitely" — rather than a positive
wait bounded by the request; 500 ms is such a failing input. -/
theorem C7_subsecond_timeout_floors_to_zero :
    brpopTimeoutSeconds 500 = 0 ∧ brpopTimeoutSeconds 999 = 0 ∧
    brpopTimeoutSeconds 1000 = 1 ∧ brpopTimeoutSeconds 60000 = 60 :=
  ⟨rfl, rfl, rfl, rfl⟩

/-- C8: fail-fast validation — the code's queue-name test coincides with
the spec's pattern `^[A-Za-z0-9_-]{1,64}$` for every string, and every
engine operation given a non-matching name fails with
`InvalidQueueName`, leaving the store completely unchanged, before any
store key is touched. -/
theorem C8_validation_fail_fast :
    (∀ name : String, validateQueueName name = specQueueNameMatches name) ∧
    (∀ (name : String) (op : QOp) (now : Nat) (s : Store),
        validateQueueName name = false →
        runOp name op now s = (.error .invalidQueueName, s)) :=
  ⟨validateQueueName_eq_spec,
   fun name op now s h => runOp_invalid name op now s h⟩

/-- C8 witness: the equivalence and the fail-fast behavior evaluated on
the malformed name `bad name`. -/
theorem C8_validation_fail_fast_witness :
    validateQueueName "bad name" = specQueueNameMatches "bad name" ∧
    runOp "bad name" (QOp.enq "p") 0 Store.empty
      = (.error .invalidQueueName, Store.empty) :=
  ⟨C8_validation_fail_fast.1 "bad name",
   C8_validation_fail_fast.2 "bad name" (QOp.enq "p") 0 Store.empty (by decide)⟩

/-- C9: dequeue fails with `TimeoutTooLarge` exactly when the requested
timeout exceeds 60 000 ms (values up to and including 60 000 proceed to
the blocking pop), and an absent timeout defaults to 10 000 ms at the
controller. -/
theorem C9_timeout_ceiling_and_default (q : String) (tm : Int) (now : Nat)
    (s : Store) (hq : validateQueueName q = true) :
    (((dequeueMessage q tm now s).1 = .error .timeoutTooLarge) ↔ 60000 < tm) ∧
    (tm ≤ 60000 → ∃ o, (dequeueMessage q tm now s).1 = .ok o) ∧
    (∀ s' : Store, ctrlDequeueMessage q none now s' = dequeueMessage q 10000 now s') := by
  refine ⟨?_, ?_, fun s' => rfl⟩
  · by_cases htm : (60000 : Int) < tm
    · simp [dequeueMessage, hq, htm]
    · rcases hgl : (s.lists q).getLast? with _ | v <;>
        simp [dequeueMessage, hq, htm, hgl]
  · intro h
    by_cases htm : (60000 : Int) < tm
    · omega
    · rcases hgl : (s.lists q).getLast? with _ | v <;>
        simp [dequeueMessage, hq, htm, hgl]

/-- C9 witness: the ceiling evaluated at 60 001 and 60 000 ms and the
default evaluated on an absent timeout. -/
theorem C9_timeout_ceiling_and_default_witness :
    (dequeueMessage "q" 60001 0 Store.empty).1 = .error .timeoutTooLarge ∧
    (∃ o, (dequeueMessage "q" 60000 0 Store.empty).1 = .ok o) ∧
    ctrlDequeueMessage "q" none 0 Store.empty
      = dequeueMessage "q" 10000 0 Store.empty :=
  ⟨(C9_timeout_ceiling_and_default "q" 60001 0 Store.empty (by decide)).1.mpr
      (by decide),
   (C9_timeout_ceiling_and_default "q" 60000 0 Store.empty (by decide)).2.1
      (by decide),
   (C9_timeout_ceiling_and_default "q" 10000 0 Store.empty (by decide)).2.2
      Store.empty⟩

/-- C10 (amended): for every queue and every requested count of at least
1, peek returns the `min count 100` oldest messages ordered oldest-first
together with the full current depth, removes nothing and changes no
store state, and an absent count defaults to 10 at the controller.  (For
`count = 0` the code's `LRANGE` start index `-0` denotes the head of the
list and the whole list is returned instead of none.) -/
theorem C10_peek_contract (q : String) (count : Int) (s : Store)
    (hq : validateQueueName q = true) (hc : 1 ≤ count) :
    ((peekMessages q count s).1.map PeekResult.messages
        = .ok ((s.lists q).reverse.take (min count 100).toNat)) ∧
    ((peekMessages q count s).1.map PeekResult.totalDepth
        = .ok (s.lists q).length) ∧
    (peekMessages q count s).2 = s ∧
    (∀ s' : Store, ctrlPeekMessages q none s' = peekMessages q 10 s') := by
  have hmin : (0 : Int) ≤ min count 100 := by omega
  have hcast : ((min count 100).toNat : Int) = min count 100 :=
    Int.toNat_of_nonneg hmin
  have hm1 : 1 ≤ (min count 100).toNat := by omega
  refine ⟨?_, ?_, peekMessages_snd q count s, fun s' => rfl⟩
  · simp only [peekMessages, hq, Bool.not_true]
    rw [if_neg (by simp)]
    simp only [Except.map]
    rw [← lrange_reverse_take (s.lists q) (min count 100).toNat hm1, hcast]
  · simp [peekMessages, hq, Except.map]

/-- C10 witness: the peek contract evaluated with count 2 on a queue of
one message. -/
theorem C10_peek_contract_witness :
    ((peekMessages "q" 2 (enqueueMessage "q" "a" "i" 0 Store.empty).2).1.map
        PeekResult.messages
      = .ok (((enqueueMessage "q" "a" "i" 0 Store.empty).2.lists "q").reverse.take
          (min (2 : Int) 100).toNat)) ∧
    (peekMessages "q" 2 (enqueueMessage "q" "a" "i" 0 Store.empty).2).2
      = (enqueueMessage "q" "a" "i" 0 Store.empty).2 :=
  ⟨(C10_peek_contract "q" 2 (enqueueMessage "q" "a" "i" 0 Store.empty).2
      (by decide) (by decide)).1,
   (C10_peek_contract "q" 2 (enqueueMessage "q" "a" "i" 0 Store.empty).2
      (by decide) (by decide)).2.2.1⟩

/-- C10 counterexample: with a queue holding one message, a peek with
requested count 0 returns that message — not the `min(0, 100) = 0`
messages the claim demands for every requested count. -/
theorem C10_peek_count_zero_returns_all :
    ((peekMessages "q" 0 (enqueueMessage "q" "a" "i" 0 Store.empty).2).1.map
        (fun pr => pr.messages.length)) = .ok 1 ∧
    (min (0 : Int) 100).toNat = 0 :=
  ⟨rfl, rfl⟩

end DMQ
